import Mathlib

/-!
Verification development for the TaskFlow dual-backend task persistence
layer.  The JavaScript sources are shallowly embedded below: pure record
manipulation becomes Lean functions over explicit state values, dates are
integer timestamps (a parameter `now` stands for `new Date()`), and
fallible paths return `Except`/`Option`.
-/

deriving instance DecidableEq for Except

namespace TaskFlow

/-! ## String helpers mirroring the JavaScript string operations -/

/-- Whitespace test standing in for the JavaScript regex class \s. -/
def isWs (c : Char) : Bool := c.isWhitespace

/-- Drop leading and trailing whitespace from a character list
(JavaScript String.prototype.trim). -/
def trimChars (cs : List Char) : List Char :=
  ((cs.dropWhile isWs).reverse.dropWhile isWs).reverse

/-- JavaScript trim on strings. -/
def jsTrim (s : String) : String := String.mk (trimChars s.data)

/-- Replace every maximal run of whitespace characters by a single space
(JavaScript replace with regex \s+ and a single-space replacement). -/
def squeezeWs : List Char → List Char
  | [] => []
  | [c] => if isWs c then [' '] else [c]
  | c :: d :: rest =>
      if isWs c && isWs d then squeezeWs (d :: rest)
      else (if isWs c then ' ' else c) :: squeezeWs (d :: rest)

/-- The text normalization done by the schema's pre-save hook:
this.text.replace(\s+ regex, single space).trim(). -/
def collapseWs (s : String) : String := jsTrim (String.mk (squeezeWs s.data))

/-- Helper for the regex test /<[^>]*>/ over a character list: true exactly
when some opening angle bracket is followed, further right, by a closing
one (the first closing bracket after an opening one has no closing bracket
between, so this is precisely when the regex matches). -/
def hasGtAfterLt : List Char → Bool
  | [] => false
  | c :: cs => if c = '<' then cs.contains '>' else hasGtAfterLt cs

/-- The schema's HTML-tag detector: htmlRegex.test(value). -/
def hasHtmlTag (s : String) : Bool := hasGtAfterLt s.data

/-- ASCII lowercase of one character (JavaScript toLowerCase restricted to
the ASCII range, which covers every string this code handles). -/
def charLower (c : Char) : Char :=
  if 'A' ≤ c ∧ c ≤ 'Z' then Char.ofNat (c.toNat + 32) else c

/-- JavaScript toLowerCase on strings. -/
def jsLower (s : String) : String := String.mk (s.data.map charLower)

/-- JavaScript defaulting idiom value-or-default for strings: the default
applies to the empty string as well, because it is falsy. -/
def jsOr (s : String) (dflt : String) : String := if s = "" then dflt else s

/-- JavaScript defaulting for an optional string field: absent (undefined)
and empty both fall back to the default. -/
def orDefault (v : Option String) (dflt : String) : String :=
  match v with
  | none => dflt
  | some s => jsOr s dflt

/-! ## In-memory backend (src/backend/src/db/memoryStore.js) -/

/-- A task record as stored by the in-memory backend.  The record carries
both the _id and the id field, exactly as built by InMemoryTask.create;
metadata is a flat key-value list. -/
structure MemTask where
  _id : String
  id : String
  text : String
  completed : Bool
  priority : String
  category : String
  dueDate : Option Int
  tags : List String
  metadata : List (String × String)
  createdAt : Int
  updatedAt : Int
  lastModified : Int
  deriving DecidableEq

/-- Payload accepted by InMemoryTask.create (the taskData argument).  The
text field is supplied by every call site; the rest may be absent. -/
structure MemCreateData where
  text : String
  completed : Option Bool := none
  priority : Option String := none
  category : Option String := none
  dueDate : Option Int := none
  tags : Option (List String) := none
  metadata : Option (List (String × String)) := none
  deriving DecidableEq

/-- The module state of memoryStore.js: the tasks array and the nextId
counter. -/
structure MemStore where
  tasks : List MemTask
  nextId : Nat
  deriving DecidableEq

/-- The initial module state: tasks = [], nextId = 1. -/
def emptyStore : MemStore := { tasks := [], nextId := 1 }

/-- InMemoryTask.create: the record gets JavaScript-falsy defaults
(completed false, priority medium, category general, tags [],
metadata {}), both _id and id receive the string of the current nextId
(String(nextId++) and String(nextId - 1) denote the same number), all three
timestamps are the current instant, the task is prepended (unshift), and
nextId is incremented.  No validation of any kind happens here. -/
def memCreate (now : Int) (d : MemCreateData) (s : MemStore) : MemTask × MemStore :=
  let newTask : MemTask :=
    { _id := toString s.nextId
      id := toString s.nextId
      text := d.text
      completed := d.completed.getD false
      priority := orDefault d.priority "medium"
      category := orDefault d.category "general"
      dueDate := d.dueDate
      tags := d.tags.getD []
      metadata := d.metadata.getD []
      createdAt := now
      updatedAt := now
      lastModified := now }
  (newTask, { tasks := newTask :: s.tasks, nextId := s.nextId + 1 })

/-- The id match used by findById, findByIdAndUpdate and findByIdAndDelete:
task._id === id or task.id === id. -/
def matchesId (i : String) (t : MemTask) : Bool := t._id == i || t.id == i

/-- InMemoryTask.findById: tasks.find over the stored array. -/
def memFindById (i : String) (s : MemStore) : Option MemTask :=
  s.tasks.find? (matchesId i)

/-- An update object as spread into a stored record by
InMemoryTask.findByIdAndUpdate.  A field that is present in the patch
overwrites the stored field — including createdAt when the patch carries
it, because the object spread copies every own property. -/
structure UpdateData where
  text : Option String := none
  completed : Option Bool := none
  priority : Option String := none
  category : Option String := none
  dueDate : Option (Option Int) := none
  tags : Option (List String) := none
  metadata : Option (List (String × String)) := none
  createdAt : Option Int := none
  updatedAt : Option Int := none
  lastModified : Option Int := none
  deriving DecidableEq

/-- Object spread of the patch over the stored task followed by the two
forced fields, exactly as written in findByIdAndUpdate:
spread task, spread updateData, then updatedAt and lastModified now. -/
def spreadUpdate (t : MemTask) (u : UpdateData) (now : Int) : MemTask :=
  { t with
    text := u.text.getD t.text
    completed := u.completed.getD t.completed
    priority := u.priority.getD t.priority
    category := u.category.getD t.category
    dueDate := u.dueDate.getD t.dueDate
    tags := u.tags.getD t.tags
    metadata := u.metadata.getD t.metadata
    createdAt := u.createdAt.getD t.createdAt
    updatedAt := now
    lastModified := now }

/-- The options object of findByIdAndUpdate; only its new field is read. -/
structure UpdateOptions where
  new : Bool := false
  deriving DecidableEq

/-- Replace the first list entry satisfying p by f of it, returning the new
entry and the new list (findIndex followed by an index assignment). -/
def setFirst {α : Type} (p : α → Bool) (f : α → α) :
    List α → Option (α × List α)
  | [] => none
  | t :: ts =>
      if p t then some (f t, f t :: ts)
      else
        match setFirst p f ts with
        | none => none
        | some (u, ts2) => some (u, t :: ts2)

/-- InMemoryTask.findByIdAndUpdate: on a missing id the call returns null
when options.new is truthy and otherwise throws the Error with message
Task not found (in both cases the stored array is untouched); on a hit the
spread-updated record replaces the stored one and is returned. -/
def memFindByIdAndUpdate (now : Int) (i : String) (u : UpdateData)
    (opts : UpdateOptions) (s : MemStore) :
    Except String (Option MemTask × MemStore) :=
  match setFirst (matchesId i) (fun t => spreadUpdate t u now) s.tasks with
  | none =>
      if opts.new then Except.ok (none, s) else Except.error "Task not found"
  | some (u2, ts2) => Except.ok (some u2, { s with tasks := ts2 })

/-- Remove the first list entry satisfying p, returning it and the
shortened list (findIndex followed by splice). -/
def removeFirst {α : Type} (p : α → Bool) :
    List α → Option (α × List α)
  | [] => none
  | t :: ts =>
      if p t then some (t, ts)
      else
        match removeFirst p ts with
        | none => none
        | some (d, ts2) => some (d, t :: ts2)

/-- InMemoryTask.findByIdAndDelete: null on a missing id with the store
untouched, otherwise the removed task with the store shrunk by exactly
that entry. -/
def memFindByIdAndDelete (i : String) (s : MemStore) : Option MemTask × MemStore :=
  match removeFirst (matchesId i) s.tasks with
  | none => (none, s)
  | some (d, ts2) => (some d, { s with tasks := ts2 })

/-- The byPriority object of InMemoryTask.aggregate: note that it counts a
fourth value, urgent, beside the three enumerated by the schema. -/
structure PriorityCounts where
  low : Nat
  medium : Nat
  high : Nat
  urgent : Nat
  deriving DecidableEq

/-- One step of the byCategory histogram:
stats.byCategory[c] = (stats.byCategory[c] or 0) + 1. -/
def bumpCategory (m : List (String × Nat)) (c : String) : List (String × Nat) :=
  match m with
  | [] => [(c, 1)]
  | (k, n) :: rest =>
      if k = c then (k, n + 1) :: rest else (k, n) :: bumpCategory rest c

/-- The result object of InMemoryTask.aggregate.  It has total, completed,
active, byPriority and byCategory keys and nothing else — in particular no
overdue and no completionRate key. -/
structure MemStats where
  total : Nat
  completed : Nat
  active : Nat
  byPriority : PriorityCounts
  byCategory : List (String × Nat)
  deriving DecidableEq

/-- InMemoryTask.aggregate: plain filters and a forEach histogram over the
whole stored array. -/
def memAggregate (ts : List MemTask) : MemStats :=
  { total := ts.length
    completed := (ts.filter (fun t => t.completed)).length
    active := (ts.filter (fun t => !t.completed)).length
    byPriority :=
      { low := (ts.filter (fun t => t.priority == "low")).length
        medium := (ts.filter (fun t => t.priority == "medium")).length
        high := (ts.filter (fun t => t.priority == "high")).length
        urgent := (ts.filter (fun t => t.priority == "urgent")).length }
    byCategory :=
      ts.foldl (fun m t => bumpCategory m (jsOr t.category "uncategorized")) [] }

/-- The five development sample records passed to InMemoryTask.create by
the sample-data initializer of memoryStore.js; the fifth carries priority
urgent. -/
def sampleTaskData : List MemCreateData :=
  [ { text := "Complete TaskFlow project deployment", priority := some "high",
      category := some "work", tags := some ["project", "deployment"] },
    { text := "Review MongoDB integration", priority := some "medium",
      category := some "development", tags := some ["database", "review"] },
    { text := "Test frontend-backend integration", priority := some "high",
      category := some "testing", tags := some ["integration", "testing"] },
    { text := "Update documentation", priority := some "low",
      category := some "documentation", tags := some ["docs", "readme"] },
    { text := "Deploy to production", priority := some "urgent",
      category := some "deployment", tags := some ["production", "deployment"] } ]

/-- The sample-data initializer of memoryStore.js: when the store is empty,
create each sample record in order (all at the same instant in this
model). -/
def initSampleData (now : Int) (s : MemStore) : MemStore :=
  if s.tasks.length = 0 then
    sampleTaskData.foldl (fun st d => (memCreate now d st).2) s
  else s

/-! ## Document-database backend (the Mongoose Task model) -/

/-- A stored document of the Task model.  A stored document keeps its text
as an optional field because a Mongoose document may simply lack the path;
dates are integer timestamps. -/
structure MongoDoc where
  _id : String
  text : Option String
  completed : Bool
  priority : String
  category : String
  dueDate : Option Int
  tags : List String
  createdAt : Int
  lastModified : Int
  deriving DecidableEq

/-- Raw payload handed to the Task constructor by createTask (req.body). -/
structure CreatePayload where
  text : Option String := none
  completed : Option Bool := none
  priority : Option String := none
  category : Option String := none
  dueDate : Option Int := none
  tags : Option (List String) := none
  deriving DecidableEq

/-- Document construction: the schema setters (trim on text and category,
lowercase on priority, trim and lowercase on each tag) and the schema
defaults (completed false, priority medium, category general, createdAt
and lastModified now) applied to the raw payload; newId stands for the
freshly generated object id. -/
def buildDoc (now : Int) (newId : String) (p : CreatePayload) : MongoDoc :=
  { _id := newId
    text := p.text.map jsTrim
    completed := p.completed.getD false
    priority := (p.priority.map jsLower).getD "medium"
    category := (p.category.map jsTrim).getD "general"
    dueDate := p.dueDate
    tags := (p.tags.getD []).map (fun t => jsLower (jsTrim t))
    createdAt := now
    lastModified := now }

/-- Validation messages for the text path, in the order the schema declares
the rules: required, minlength 3, maxlength 255, then the custom HTML-tag
validator.  Mongoose required also fails on the empty string.  A Mongoose
ValidationError keeps one ValidatorError per path, so at most one message
is produced here. -/
def textErrors (d : MongoDoc) : List String :=
  match d.text with
  | none => ["Task text is required"]
  | some t =>
      if t = "" then ["Task text is required"]
      else if t.length < 3 then ["Task text must be at least 3 characters"]
      else if 255 < t.length then ["Task text cannot exceed 255 characters"]
      else if hasHtmlTag t then ["Task text cannot contain HTML tags"]
      else []

/-- Validation for the priority path: the enum low, medium, high. -/
def priorityErrors (d : MongoDoc) : List String :=
  if d.priority == "low" || d.priority == "medium" || d.priority == "high" then []
  else ["Priority must be either low, medium, or high"]

/-- Validation for the category path: maxlength 50. -/
def categoryErrors (d : MongoDoc) : List String :=
  if 50 < d.category.length then ["Category cannot exceed 50 characters"] else []

/-- Validation for the dueDate path: the custom validator accepts an absent
value and otherwise requires the value to be at or after the start of the
current calendar day (new Date().setHours(0,0,0,0), the todayStart
parameter). -/
def dueDateErrors (todayStart : Int) (d : MongoDoc) : List String :=
  match d.dueDate with
  | none => []
  | some due => if due < todayStart then ["Due date cannot be in the past"] else []

/-- Validation for the tags path: each tag maxlength 20. -/
def tagsErrors (d : MongoDoc) : List String :=
  if d.tags.any (fun t => 20 < t.length) then ["Tag cannot exceed 20 characters"]
  else []

/-- Schema validation of a document: the per-path messages in schema
declaration order, as collected into a Mongoose ValidationError. -/
def validateDoc (todayStart : Int) (d : MongoDoc) : List String :=
  textErrors d ++ priorityErrors d ++ categoryErrors d ++
    dueDateErrors todayStart d ++ tagsErrors d

/-- The schema's pre-save hook: refresh lastModified, collapse whitespace
runs in the text, raise a plain Error (not a ValidationError) when the
document has more than 10 tags, and drop empty tags. -/
def preSaveHook (now : Int) (d : MongoDoc) : Except String MongoDoc :=
  let d1 := { d with lastModified := now, text := d.text.map collapseWs }
  if 10 < d1.tags.length then
    Except.error "Cannot have more than 10 tags per task"
  else
    Except.ok { d1 with tags := d1.tags.filter (fun t => t != "" && jsTrim t != "") }

/-- The two error shapes the embedded save path can produce: a Mongoose
ValidationError with its per-path messages, or a plain Error with a bare
message. -/
inductive DBError where
  | validation : List String → DBError
  | plainError : String → DBError
  deriving DecidableEq

/-- The save path of new Task(payload) followed by save(): setters and
defaults, then schema validation, then — only when validation produced no
error — the user pre-save hook (Mongoose runs validation before any user
pre-save middleware), then persistence of the hook's result. -/
def mongoSave (now todayStart : Int) (newId : String) (p : CreatePayload) :
    Except DBError MongoDoc :=
  let d := buildDoc now newId p
  match validateDoc todayStart d with
  | [] =>
      match preSaveHook now d with
      | Except.error m => Except.error (DBError.plainError m)
      | Except.ok d2 => Except.ok d2
  | e :: es => Except.error (DBError.validation (e :: es))

/-- The HTTP error responses produced by handleDBError of
taskController.js. -/
structure ErrorResponse where
  status : Nat
  error : String
  details : List String
  deriving DecidableEq

/-- handleDBError of taskController.js restricted to the error values the
embedded model produces: a ValidationError becomes status 400 with details
holding every collected per-path message; a plain Error falls through to
the generic branch with status 500 (details as in development mode). -/
def handleDBError : DBError → ErrorResponse
  | DBError.validation errs =>
      { status := 400, error := "Validation failed", details := errs }
  | DBError.plainError m =>
      { status := 500, error := "Database operation failed", details := [m] }

/-- Update semantics of Task.findByIdAndUpdate applied to one document,
modelled from the schema declarations: setters apply to incoming fields,
the createdAt path is declared immutable and is therefore stripped from
any update, and lastModified becomes the current instant (the controller
spreads lastModified now into the update and the pre findOneAndUpdate
hook sets it as well). -/
def mongoApplyUpdate (now : Int) (u : UpdateData) (d : MongoDoc) : MongoDoc :=
  { d with
    text := match u.text with | none => d.text | some t => some (jsTrim t)
    completed := u.completed.getD d.completed
    priority := (u.priority.map jsLower).getD d.priority
    category := (u.category.map jsTrim).getD d.category
    dueDate := u.dueDate.getD d.dueDate
    tags := (u.tags.map (List.map (fun t => jsLower (jsTrim t)))).getD d.tags
    lastModified := now }

/-- Task.findById over a collection of documents. -/
def mongoFindById (i : String) (docs : List MongoDoc) : Option MongoDoc :=
  docs.find? (fun d => d._id == i)

/-- Task.findByIdAndUpdate with the new: true option over a collection:
none when no document carries the id, otherwise the updated document and
the updated collection. -/
def mongoFindByIdAndUpdate (now : Int) (i : String) (u : UpdateData)
    (docs : List MongoDoc) : Option MongoDoc × List MongoDoc :=
  match setFirst (fun d => d._id == i) (mongoApplyUpdate now u) docs with
  | none => (none, docs)
  | some (d2, docs2) => (some d2, docs2)

/-- Task.findByIdAndDelete over a collection. -/
def mongoFindByIdAndDelete (i : String) (docs : List MongoDoc) :
    Option MongoDoc × List MongoDoc :=
  match removeFirst (fun d => d._id == i) docs with
  | none => (none, docs)
  | some (d, docs2) => (some d, docs2)

/-- The statistics fields named by the specification, common to both
backends; a field holds none when the backend's result object carries no
such key.  completionRate is exact rational arithmetic, because the
aggregation pipeline divides and multiplies without rounding. -/
structure StatsFields where
  total : Option Nat := none
  completed : Option Nat := none
  active : Option Nat := none
  overdue : Option Nat := none
  completionRate : Option ℚ := none
  deriving DecidableEq

/-- The aggregation-expression comparison dueDate strictly less than now:
a missing field evaluates to the missing value, which precedes every date
in the aggregation comparison order, so a document without a dueDate
satisfies the comparison. -/
def aggLtDate (dueDate : Option Int) (now : Int) : Bool :=
  match dueDate with
  | none => true
  | some d => d < now

/-- getStatistics of the Task model: the group stage folds conditional
increments over every document and the project stage computes
completionRate as completed divided by total times 100 with a zero guard;
over an empty collection the group stage emits no document and the
JavaScript fallback object with every field zero is returned. -/
def getStatistics (now : Int) (docs : List MongoDoc) : StatsFields :=
  match docs with
  | [] =>
      { total := some 0, completed := some 0, active := some 0,
        overdue := some 0, completionRate := some 0 }
  | _ :: _ =>
      let total : Nat := docs.foldl (fun acc _ => acc + 1) 0
      let comp : Nat :=
        docs.foldl (fun acc d => acc + (if d.completed then 1 else 0)) 0
      let act : Nat :=
        docs.foldl (fun acc d => acc + (if d.completed then 0 else 1)) 0
      let ovd : Nat :=
        docs.foldl
          (fun acc d =>
            acc + (if aggLtDate d.dueDate now && !d.completed then 1 else 0)) 0
      { total := some total, completed := some comp, active := some act,
        overdue := some ovd,
        completionRate :=
          some (if total = 0 then 0 else (comp : ℚ) / (total : ℚ) * 100) }

/-- Keys of the in-memory aggregate result lifted into the common shape:
the object literal of InMemoryTask.aggregate carries total, completed and
active (beside byPriority and byCategory) and has no overdue and no
completionRate key. -/
def memStatsFields (ts : List MemTask) : StatsFields :=
  { total := some (memAggregate ts).total
    completed := some (memAggregate ts).completed
    active := some (memAggregate ts).active
    overdue := none
    completionRate := none }

/-! ## Controllers -/

/-- The seven operations of the task API named by the specification. -/
inductive ApiOp where
  | list | getById | create | update | delete | search | stats
  deriving DecidableEq

/-- The two storage variants. -/
inductive BackendKind where
  | mongo | memory
  deriving DecidableEq

/-- The connection test of both controllers:
mongoose.connection.readyState === 1. -/
def isMongoAvailable (readyState : Nat) : Bool := readyState == 1

/-- getTaskModel as written in both controllers: the document model when a
live connection exists, the in-memory model otherwise. -/
def getTaskModel (readyState : Nat) : BackendKind :=
  if isMongoAvailable readyState then BackendKind.mongo else BackendKind.memory

/-- The model each handler of taskController.js actually uses.  Every
handler of that file (getAllTasks, getTaskById, createTask, updateTask,
deleteTask, getTaskStatistics, searchTasks) references the imported Task
model directly; getTaskModel is defined in the file but never called, so
the choice is the document model for every operation and every connection
state. -/
def mainControllerModel (op : ApiOp) (readyState : Nat) : BackendKind :=
  BackendKind.mongo

/-- The model each handler of the simplified controller uses: every handler
awaits getTaskModel() before touching storage. -/
def simpleControllerModel (op : ApiOp) (readyState : Nat) : BackendKind :=
  getTaskModel readyState

/-- The pagination object of a list response.  Fields hold none when the
responding controller's object literal has no such key. -/
structure Pagination where
  currentPage : Nat
  totalPages : Option Nat
  totalItems : Nat
  itemsPerPage : Nat
  hasNextPage : Option Bool
  hasPrevPage : Option Bool
  deriving DecidableEq

/-- Pagination metadata computed by getAllTasks of taskController.js:
totalCount comes from countDocuments over the same filter as the page
query, totalPages is the ceiling of totalCount over limit, and the two
flags compare the current page against totalPages and one. -/
def mainPagination (page limit totalCount : Nat) : Pagination :=
  let totalPages := (totalCount + limit - 1) / limit
  { currentPage := page
    totalPages := some totalPages
    totalItems := totalCount
    itemsPerPage := limit
    hasNextPage := some (decide (page < totalPages))
    hasPrevPage := some (decide (1 < page)) }

/-- getAllTasks of taskController.js on the document backend, abstracted
over the list of documents matching the filter: skip and limit run at the
backend while countDocuments sees the whole matching set. -/
def mainGetAllTasks (page limit : Nat) (matching : List MongoDoc) :
    List MongoDoc × Pagination :=
  ((matching.drop ((page - 1) * limit)).take limit,
   mainPagination page limit matching.length)

/-- getAllTasks of the simplified controller on the in-memory path: the
whole matching set is fetched, the page slice is taken afterwards, and
totalCount is read from the sliced list; the pagination object it sends
has currentPage, itemsPerPage and totalItems keys only. -/
def simpleGetAllTasksMemory (page limit : Nat) (matching : List MemTask) :
    List MemTask × Pagination :=
  let sliced := (matching.drop ((page - 1) * limit)).take limit
  (sliced,
   { currentPage := page
     totalPages := none
     totalItems := sliced.length
     itemsPerPage := limit
     hasNextPage := none
     hasPrevPage := none })

/-- createTask of the simplified controller on the in-memory path: reject
with a 400 only when the text is absent or trims to nothing, then hand the
trimmed text and the JavaScript-falsy defaults to InMemoryTask.create.  No
length bound, markup check, priority check or dueDate check happens on
this path. -/
def simpleCreateTaskMemory (now : Int) (p : CreatePayload) (s : MemStore) :
    Except ErrorResponse (MemTask × MemStore) :=
  match p.text with
  | none =>
      Except.error
        { status := 400, error := "Task text is required",
          details := ["Please provide task text"] }
  | some t =>
      if jsTrim t = "" then
        Except.error
          { status := 400, error := "Task text is required",
            details := ["Please provide task text"] }
      else
        Except.ok (memCreate now
          { text := jsTrim t
            completed := some (p.completed.getD false)
            priority := some (orDefault p.priority "medium")
            category := some (orDefault p.category "general")
            tags := some (p.tags.getD [])
            dueDate := p.dueDate
            metadata := none } s)

/-- deleteTask of the simplified controller on the in-memory path: a null
result from findByIdAndDelete maps to a 404 response and any removed task
to a 200 response; no exception escapes. -/
def simpleDeleteTaskMemory (i : String) (s : MemStore) : Nat × MemStore :=
  match memFindByIdAndDelete i s with
  | (none, s2) => (404, s2)
  | (some _, s2) => (200, s2)

/-! ## Concrete example data used by counterexamples and witnesses -/

/-- A store holding one task created at instant 100. -/
def exStore1 : MemStore :=
  (memCreate 100 { text := "Write weekly report" } emptyStore).2

/-- The single task of exStore1, written out. -/
def exTask1 : MemTask :=
  { _id := "1", id := "1", text := "Write weekly report", completed := false,
    priority := "medium", category := "general", dueDate := none, tags := [],
    metadata := [], createdAt := 100, updatedAt := 100, lastModified := 100 }

/-- A benign patch touching only the text. -/
def exPatch : UpdateData := { text := some "Edited report" }

/-- The task of exStore1 after exPatch at instant 200. -/
def exTask1Upd : MemTask :=
  { exTask1 with text := "Edited report", updatedAt := 200, lastModified := 200 }

/-- A stored document used to exercise the document-backend update. -/
def exDoc1 : MongoDoc :=
  { _id := "a1", text := some "Plan sprint", completed := false,
    priority := "medium", category := "general", dueDate := none, tags := [],
    createdAt := 100, lastModified := 100 }

/-- The document of exDoc1 after a completed-flag update at instant 200. -/
def exDoc1Upd : MongoDoc :=
  { exDoc1 with completed := true, lastModified := 200 }

/-- Eleven distinct tags, one more than the cap. -/
def elevenTags : List String :=
  ["a1", "a2", "a3", "a4", "a5", "a6", "a7", "a8", "a9", "b1", "b2"]

/-- A payload violating two rules at once: the text is too short and the
tag list exceeds the cap of ten. -/
def badPayload : CreatePayload := { text := some "ab", tags := some elevenTags }

/-- The stored document produced by saving the milk payload at instant
1500 with todayStart 1000. -/
def exMilkDoc : MongoDoc :=
  { _id := "m1", text := some "Buy milk", completed := false,
    priority := "medium", category := "general", dueDate := some 1200,
    tags := [], createdAt := 1500, lastModified := 1500 }

/-- The stored document produced by saving a payload without a dueDate at
instant 1500. -/
def exMomDoc : MongoDoc :=
  { _id := "m2", text := some "Call mom", completed := false,
    priority := "medium", category := "general", dueDate := none,
    tags := [], createdAt := 1500, lastModified := 1500 }

/-- The stored document produced by saving the text with extra whitespace
at instant 0: the pre-save hook collapses the runs. -/
def exSaveDoc : MongoDoc :=
  { _id := "w1", text := some "hello world", completed := false,
    priority := "medium", category := "general", dueDate := none,
    tags := [], createdAt := 0, lastModified := 0 }

/-- The in-memory task produced by the simplified create with the text ab
padded with whitespace, at instant 0 over the empty store. -/
def exMemTaskAb : MemTask :=
  { _id := "1", id := "1", text := "ab", completed := false,
    priority := "medium", category := "general", dueDate := none, tags := [],
    metadata := [], createdAt := 0, updatedAt := 0, lastModified := 0 }

/-! ## Update validation on the document backend

The controller's updateTask calls Task.findByIdAndUpdate with the
runValidators true option, so Mongoose runs the schema validators on
every path present in the update (setters applied first); the pre-save
hook is save middleware and does not run on this path. -/

/-- Update validation for the text path, when the update carries it. -/
def updTextErrors (u : UpdateData) : List String :=
  match u.text with
  | none => []
  | some t0 =>
      let t := jsTrim t0
      if t = "" then ["Task text is required"]
      else if t.length < 3 then ["Task text must be at least 3 characters"]
      else if 255 < t.length then ["Task text cannot exceed 255 characters"]
      else if hasHtmlTag t then ["Task text cannot contain HTML tags"]
      else []

/-- Update validation for the priority path: the enum, after the
lowercase setter. -/
def updPriorityErrors (u : UpdateData) : List String :=
  match u.priority with
  | none => []
  | some p0 =>
      let p := jsLower p0
      if p == "low" || p == "medium" || p == "high" then []
      else ["Priority must be either low, medium, or high"]

/-- Update validation for the category path. -/
def updCategoryErrors (u : UpdateData) : List String :=
  match u.category with
  | none => []
  | some c0 =>
      if 50 < (jsTrim c0).length then ["Category cannot exceed 50 characters"]
      else []

/-- Update validation for the dueDate path: the custom validator accepts
an absent value (clearing the date included) and otherwise requires the
value to be at or after the start of the current day. -/
def updDueDateErrors (todayStart : Int) (u : UpdateData) : List String :=
  match u.dueDate with
  | none => []
  | some none => []
  | some (some due) =>
      if due < todayStart then ["Due date cannot be in the past"] else []

/-- Update validation for the tags path: each tag maxlength 20 after the
setters.  There is no cap on the number of tags here: that rule lives in
the pre-save hook, which does not run on updates. -/
def updTagsErrors (u : UpdateData) : List String :=
  match u.tags with
  | none => []
  | some ts =>
      if (ts.map (fun t => jsLower (jsTrim t))).any (fun t => 20 < t.length)
      then ["Tag cannot exceed 20 characters"]
      else []

/-- The per-path messages of update validation, in schema declaration
order, over the paths the update carries. -/
def validateUpdate (todayStart : Int) (u : UpdateData) : List String :=
  updTextErrors u ++ updPriorityErrors u ++ updCategoryErrors u ++
    updDueDateErrors todayStart u ++ updTagsErrors u

/-- updateTask of taskController.js on the document backend: it spreads
lastModified now into the patch and calls Task.findByIdAndUpdate with the
new and runValidators true options.  Update validators run on the paths
present in the patch before anything is written; on failure the call
rejects with a ValidationError and the collection is untouched, otherwise
the update of mongoFindByIdAndUpdate applies. -/
def updateTaskMongo (now todayStart : Int) (i : String) (u : UpdateData)
    (docs : List MongoDoc) : Except DBError (Option MongoDoc × List MongoDoc) :=
  match validateUpdate todayStart u with
  | [] => Except.ok (mongoFindByIdAndUpdate now i u docs)
  | e :: es => Except.error (DBError.validation (e :: es))

/-- deleteTask of taskController.js on the document backend: a null
result from Task.findByIdAndDelete maps to a 404 response, a removed
document to the 204 no-content response; no exception escapes. -/
def mainDeleteTask (i : String) (docs : List MongoDoc) : Nat × List MongoDoc :=
  match mongoFindByIdAndDelete i docs with
  | (none, docs2) => (404, docs2)
  | (some _, docs2) => (204, docs2)

/-- The milk document after a completed-flag update at instant 1500. -/
def exMilkDoc2 : MongoDoc := { exMilkDoc with completed := true }

/-! ## Helper lemmas about the first-match combinators -/

/-- A list with no entry satisfying p is left alone by setFirst. -/
theorem setFirst_eq_none {α : Type} (p : α → Bool) (f : α → α) (l : List α)
    (h : ∀ x ∈ l, ¬ p x = true) : setFirst p f l = none := by
  induction l with
  | nil => rfl
  | cons t ts ih =>
      simp only [setFirst]
      rw [if_neg (h t (by simp)), ih (fun x hx => h x (by simp [hx]))]

/-- setFirst rewrites exactly the entry that find? returns. -/
theorem setFirst_find? {α : Type} (p : α → Bool) (f : α → α) (l : List α)
    (t u : α) (l2 : List α) (hf : l.find? p = some t)
    (hs : setFirst p f l = some (u, l2)) : u = f t := by
  induction l generalizing u l2 with
  | nil => simp [setFirst] at hs
  | cons a as ih =>
      by_cases hp : p a = true
      · rw [List.find?_cons_of_pos _ hp] at hf
        simp only [setFirst, if_pos hp] at hs
        have ht : t = a := by cases hf; rfl
        have hu : u = f a := by cases hs; rfl
        rw [hu, ht]
      · rw [List.find?_cons_of_neg _ hp] at hf
        simp only [setFirst, if_neg hp] at hs
        cases hrec : setFirst p f as with
        | none => rw [hrec] at hs; cases hs
        | some r =>
            obtain ⟨u2, ts2⟩ := r
            rw [hrec] at hs
            have hu : u = u2 := by cases hs; rfl
            rw [hu]
            exact ih u2 ts2 hf hrec

/-- A list with no entry satisfying p is left alone by removeFirst. -/
theorem removeFirst_eq_none {α : Type} (p : α → Bool) (l : List α)
    (h : ∀ x ∈ l, ¬ p x = true) : removeFirst p l = none := by
  induction l with
  | nil => rfl
  | cons t ts ih =>
      simp only [removeFirst]
      rw [if_neg (h t (by simp)), ih (fun x hx => h x (by simp [hx]))]

/-- removeFirst drops exactly one entry counted by p. -/
theorem removeFirst_countP {α : Type} (p : α → Bool) (l : List α)
    (t : α) (l2 : List α) (h : removeFirst p l = some (t, l2)) :
    l2.countP p + 1 = l.countP p := by
  induction l generalizing t l2 with
  | nil => simp [removeFirst] at h
  | cons a as ih =>
      by_cases hp : p a = true
      · simp only [removeFirst, if_pos hp] at h
        have hl : l2 = as := by cases h; rfl
        subst hl
        simp [List.countP_cons, hp]
      · simp only [removeFirst, if_neg hp] at h
        cases hrec : removeFirst p as with
        | none => rw [hrec] at h; cases h
        | some r =>
            obtain ⟨d, ts2⟩ := r
            rw [hrec] at h
            have hl : l2 = a :: ts2 := by cases h; rfl
            subst hl
            have hcount := ih d ts2 hrec
            simp only [List.countP_cons, hp]
            omega

/-- Ceiling division on naturals agrees with the rational ceiling, the
form the specification states. -/
theorem ceil_div_formula (n L : Nat) (hL : 0 < L) :
    (n + L - 1) / L = ⌈(n : ℚ) / (L : ℚ)⌉₊ := by
  have hLQ : (0 : ℚ) < L := by exact_mod_cast hL
  apply le_antisymm
  · rw [Nat.div_le_iff_le_mul_add_pred hL]
    have h1 : (n : ℚ) / L ≤ (⌈(n : ℚ) / L⌉₊ : ℚ) := Nat.le_ceil _
    rw [div_le_iff hLQ] at h1
    have h3 : n ≤ ⌈(n : ℚ) / L⌉₊ * L := by exact_mod_cast h1
    rw [Nat.mul_comm] at h3
    omega
  · rw [Nat.ceil_le, div_le_iff hLQ]
    have hdm := Nat.div_add_mod (n + L - 1) L
    have hmod : (n + L - 1) % L < L := Nat.mod_lt _ hL
    have h4 : n ≤ (n + L - 1) / L * L := by
      rw [Nat.mul_comm]
      omega
    exact_mod_cast h4

/-- Folding a conditional increment counts the satisfying entries. -/
theorem foldl_count_aux {α : Type} (p : α → Bool) (l : List α) (n : Nat) :
    l.foldl (fun acc x => acc + (if p x then 1 else 0)) n = n + l.countP p := by
  induction l generalizing n with
  | nil => simp
  | cons a as ih =>
      by_cases hp : p a = true <;> simp [List.countP_cons, hp, ih] <;> omega

/-- Folding the reversed conditional increment counts the failing
entries. -/
theorem foldl_count_neg_aux {α : Type} (p : α → Bool) (l : List α) (n : Nat) :
    l.foldl (fun acc x => acc + (if p x then 0 else 1)) n
      = n + l.countP (fun x => !p x) := by
  induction l generalizing n with
  | nil => simp
  | cons a as ih =>
      by_cases hp : p a = true <;> simp [List.countP_cons, hp, ih] <;> omega

/-- Folding a plain increment computes the length. -/
theorem foldl_length_aux {α : Type} (l : List α) (n : Nat) :
    l.foldl (fun acc _ => acc + 1) n = n + l.length := by
  induction l generalizing n with
  | nil => simp
  | cons a as ih => simp [ih]; omega

/-- Counting the failing entries complements counting the satisfying
ones. -/
theorem countP_not_aux {α : Type} (p : α → Bool) (l : List α) :
    l.countP (fun x => !p x) = l.length - l.countP p := by
  induction l with
  | nil => rfl
  | cons a as ih =>
      have hle := List.countP_le_length p (l := as)
      by_cases hp : p a = true <;> simp [List.countP_cons, hp, ih] <;> omega

/-- A successful save implies that schema validation produced no
message. -/
theorem mongoSave_ok_validate (now todayStart : Int) (newId : String)
    (p : CreatePayload) (d : MongoDoc)
    (h : mongoSave now todayStart newId p = Except.ok d) :
    validateDoc todayStart (buildDoc now newId p) = [] := by
  cases hv : validateDoc todayStart (buildDoc now newId p) with
  | nil => rfl
  | cons a as => simp only [mongoSave, hv] at h; cases h

/-- A successful save stores exactly the built document with lastModified
refreshed, the whitespace-collapsed text and the empty tags dropped; and
the tag cap was not exceeded. -/
theorem mongoSave_ok_shape (now todayStart : Int) (newId : String)
    (p : CreatePayload) (d : MongoDoc)
    (h : mongoSave now todayStart newId p = Except.ok d) :
    d = { buildDoc now newId p with
          lastModified := now
          text := (buildDoc now newId p).text.map collapseWs
          tags := (buildDoc now newId p).tags.filter
              (fun t => t != "" && jsTrim t != "") } ∧
    ¬ 10 < (buildDoc now newId p).tags.length := by
  have hv := mongoSave_ok_validate now todayStart newId p d h
  simp only [mongoSave, hv, preSaveHook] at h
  by_cases hgt : 10 < (buildDoc now newId p).tags.length
  · rw [if_pos hgt] at h; cases h
  · rw [if_neg hgt] at h
    refine ⟨?_, hgt⟩
    cases h
    rfl

/-- An empty message list for the text path pins the text bounds and the
absence of markup. -/
theorem textErrors_nil (t : String) (d : MongoDoc) (hd : d.text = some t)
    (h : textErrors d = []) :
    3 ≤ t.length ∧ t.length ≤ 255 ∧ hasHtmlTag t = false := by
  simp only [textErrors, hd] at h
  by_cases h0 : t = ""
  · rw [if_pos h0] at h; cases h
  · rw [if_neg h0] at h
    by_cases h1 : t.length < 3
    · rw [if_pos h1] at h; cases h
    · rw [if_neg h1] at h
      by_cases h2 : 255 < t.length
      · rw [if_pos h2] at h; cases h
      · rw [if_neg h2] at h
        by_cases h3 : hasHtmlTag t = true
        · rw [if_pos h3] at h; cases h
        · exact ⟨by omega, by omega, by simpa using h3⟩

/-- An empty message list for the dueDate path pins the bound against the
start of the current day. -/
theorem dueDateErrors_nil (todayStart : Int) (d : MongoDoc) (due : Int)
    (hd : d.dueDate = some due) (h : dueDateErrors todayStart d = []) :
    todayStart ≤ due := by
  simp only [dueDateErrors, hd] at h
  by_cases h1 : due < todayStart
  · rw [if_pos h1] at h; cases h
  · omega

/-- An empty message list for the priority path pins the priority to the
enumeration. -/
theorem priorityErrors_nil (d : MongoDoc) (h : priorityErrors d = []) :
    d.priority = "low" ∨ d.priority = "medium" ∨ d.priority = "high" := by
  simp only [priorityErrors] at h
  by_cases hc : (d.priority == "low" || d.priority == "medium"
      || d.priority == "high") = true
  · simp only [Bool.or_eq_true, beq_iff_eq] at hc
    tauto
  · rw [if_neg hc] at h; cases h

/-- An empty update-validation message list for the priority path pins a
carried priority to the enumeration after lowercasing. -/
theorem updPriorityErrors_nil (u : UpdateData) (p0 : String)
    (hp : u.priority = some p0) (h : updPriorityErrors u = []) :
    jsLower p0 = "low" ∨ jsLower p0 = "medium" ∨ jsLower p0 = "high" := by
  simp only [updPriorityErrors, hp] at h
  by_cases hc : (jsLower p0 == "low" || jsLower p0 == "medium"
      || jsLower p0 == "high") = true
  · simp only [Bool.or_eq_true, beq_iff_eq] at hc
    tauto
  · rw [if_neg hc] at h; cases h

/-- The simplified create on the in-memory path succeeds on any payload
whose text does not trim to nothing, handing the trimmed text and the
falsy defaults to InMemoryTask.create. -/
theorem simpleCreateTaskMemory_ok (now : Int) (p : CreatePayload)
    (raw : String) (hraw : p.text = some raw) (hz : ¬ jsTrim raw = "")
    (s : MemStore) :
    simpleCreateTaskMemory now p s = Except.ok (memCreate now
      { text := jsTrim raw
        completed := some (p.completed.getD false)
        priority := some (orDefault p.priority "medium")
        category := some (orDefault p.category "general")
        tags := some (p.tags.getD [])
        dueDate := p.dueDate
        metadata := none } s) := by
  simp only [simpleCreateTaskMemory, hraw]
  rw [if_neg hz]

/-! ## Claim theorems -/

/-- C10.  For the in-memory backend, findByIdAndUpdate applied to an id
matching no stored task returns null (a not-found value) when the options
argument has a truthy new field, and throws the Error with message
Task not found when the new field is falsy (the options argument absent
defaults its new field to false, the falsy case); in both cases the
stored task set is untouched: the null return carries the unchanged store
and the throw happens before any mutation of the array. -/
theorem C10_update_missing_id (now : Int) (i : String) (u : UpdateData)
    (opts : UpdateOptions) (s : MemStore) (h : memFindById i s = none) :
    (opts.new = true →
      memFindByIdAndUpdate now i u opts s = Except.ok (none, s)) ∧
    (opts.new = false →
      memFindByIdAndUpdate now i u opts s = Except.error "Task not found") := by
  have hall : ∀ x ∈ s.tasks, ¬ matchesId i x = true :=
    List.find?_eq_none.mp h
  have hset := setFirst_eq_none (matchesId i) (fun t => spreadUpdate t u now)
    s.tasks hall
  constructor
  · intro hn
    simp [memFindByIdAndUpdate, hset, hn]
  · intro hn
    simp [memFindByIdAndUpdate, hset, hn]

/-- Witness for C10 at a concrete store: the id 99 matches nothing in the
one-task store, the new-true call answers null with the store unchanged,
and the options-absent call (new defaults to false) throws. -/
theorem C10_update_missing_id_witness :
    memFindById "99" exStore1 = none ∧
    memFindByIdAndUpdate 0 "99" {} { new := true } exStore1
      = Except.ok (none, exStore1) ∧
    memFindByIdAndUpdate 0 "99" {} {} exStore1
      = Except.error "Task not found" :=
  ⟨by decide,
   (C10_update_missing_id 0 "99" {} { new := true } exStore1 (by decide)).1 rfl,
   (C10_update_missing_id 0 "99" {} {} exStore1 (by decide)).2 rfl⟩

/-- C3 counterexample.  On the in-memory path of the simplified
controller, listing the five sample tasks with page 1 and limit 2 reports
totalItems 2 — the size of the returned page, not of the whole matching
set (5) — and the pagination object carries no totalPages, hasNextPage or
hasPrevPage key at all. -/
theorem C3_counterexample :
    (initSampleData 0 emptyStore).tasks.length = 5 ∧
    (simpleGetAllTasksMemory 1 2 (initSampleData 0 emptyStore).tasks).2.totalItems = 2 ∧
    (simpleGetAllTasksMemory 1 2 (initSampleData 0 emptyStore).tasks).2.totalPages = none ∧
    (simpleGetAllTasksMemory 1 2 (initSampleData 0 emptyStore).tasks).2.hasNextPage = none ∧
    (simpleGetAllTasksMemory 1 2 (initSampleData 0 emptyStore).tasks).2.hasPrevPage = none := by
  decide

/-- C3 amended.  For every list request with page p and limit L over a
task set with totalCount matching tasks, the document-backend controller's
pagination metadata satisfies totalItems = totalCount, totalPages =
ceil(totalCount / L), currentPage = p, itemsPerPage = L, hasNextPage =
(p < totalPages) and hasPrevPage = (p > 1); the in-memory path of the
simplified controller instead reports totalItems equal to the length of
the returned page slice and omits totalPages, hasNextPage and
hasPrevPage. -/
theorem C3_pagination (p L : Nat) (hL : 0 < L) (matching : List MongoDoc)
    (ms : List MemTask) :
    (mainGetAllTasks p L matching).2.currentPage = p ∧
    (mainGetAllTasks p L matching).2.totalItems = matching.length ∧
    (mainGetAllTasks p L matching).2.itemsPerPage = L ∧
    (mainGetAllTasks p L matching).2.totalPages
        = some ⌈(matching.length : ℚ) / (L : ℚ)⌉₊ ∧
    (mainGetAllTasks p L matching).2.hasNextPage
        = some (decide (p < ⌈(matching.length : ℚ) / (L : ℚ)⌉₊)) ∧
    (mainGetAllTasks p L matching).2.hasPrevPage = some (decide (1 < p)) ∧
    (simpleGetAllTasksMemory p L ms).2.totalItems
        = ((ms.drop ((p - 1) * L)).take L).length ∧
    (simpleGetAllTasksMemory p L ms).2.totalPages = none ∧
    (simpleGetAllTasksMemory p L ms).2.hasNextPage = none ∧
    (simpleGetAllTasksMemory p L ms).2.hasPrevPage = none := by
  have hceil := ceil_div_formula matching.length L hL
  refine ⟨rfl, rfl, rfl, ?_, ?_, rfl, rfl, rfl, rfl, rfl⟩
  · simp only [mainGetAllTasks, mainPagination, hceil]
  · simp only [mainGetAllTasks, mainPagination, hceil]

/-- Witness for C3 at page 2, limit 2, one matching document and an empty
in-memory set. -/
theorem C3_pagination_witness :
    0 < 2 ∧
    ((mainGetAllTasks 2 2 [exDoc1]).2.currentPage = 2 ∧
      (mainGetAllTasks 2 2 [exDoc1]).2.totalItems = [exDoc1].length ∧
      (mainGetAllTasks 2 2 [exDoc1]).2.itemsPerPage = 2 ∧
      (mainGetAllTasks 2 2 [exDoc1]).2.totalPages
          = some ⌈(([exDoc1] : List MongoDoc).length : ℚ) / ((2 : Nat) : ℚ)⌉₊ ∧
      (mainGetAllTasks 2 2 [exDoc1]).2.hasNextPage
          = some (decide (2 < ⌈(([exDoc1] : List MongoDoc).length : ℚ) / ((2 : Nat) : ℚ)⌉₊)) ∧
      (mainGetAllTasks 2 2 [exDoc1]).2.hasPrevPage = some (decide (1 < 2)) ∧
      (simpleGetAllTasksMemory 2 2 ([] : List MemTask)).2.totalItems
          = ((([] : List MemTask).drop ((2 - 1) * 2)).take 2).length ∧
      (simpleGetAllTasksMemory 2 2 ([] : List MemTask)).2.totalPages = none ∧
      (simpleGetAllTasksMemory 2 2 ([] : List MemTask)).2.hasNextPage = none ∧
      (simpleGetAllTasksMemory 2 2 ([] : List MemTask)).2.hasPrevPage = none) :=
  ⟨by decide, C3_pagination 2 2 (by decide) [exDoc1] []⟩

/-- C4 counterexample.  The in-memory aggregate result over the sample
data has no overdue and no completionRate field at all, so the claim that
both backends produce these fields fails. -/
theorem C4_counterexample :
    (memStatsFields (initSampleData 0 emptyStore).tasks).overdue = none ∧
    (memStatsFields (initSampleData 0 emptyStore).tasks).completionRate = none ∧
    (memStatsFields (initSampleData 0 emptyStore).tasks).total = some 5 := by
  decide

/-- C4 amended.  Over every state of the task set, the document backend's
getStatistics computes total = the number of documents, completed = the
number with completed true, active = total - completed, overdue = the
number with completed false whose dueDate is either absent (a missing
field compares below every date in the aggregation order) or strictly
before now, and completionRate = completed / total * 100 as an exact
(unrounded) rational, 0 when total = 0.  The in-memory backend computes
total, completed and active with the same meaning but produces neither an
overdue nor a completionRate field. -/
theorem C4_statistics (now : Int) (docs : List MongoDoc) (ts : List MemTask) :
    (getStatistics now docs).total = some docs.length ∧
    (getStatistics now docs).completed
        = some (docs.countP (fun d => d.completed)) ∧
    (getStatistics now docs).active
        = some (docs.length - docs.countP (fun d => d.completed)) ∧
    (getStatistics now docs).overdue
        = some (docs.countP (fun d => aggLtDate d.dueDate now && !d.completed)) ∧
    (getStatistics now docs).completionRate
        = some (if docs.length = 0 then 0
            else (docs.countP (fun d => d.completed) : ℚ) / (docs.length : ℚ) * 100) ∧
    (memStatsFields ts).total = some ts.length ∧
    (memStatsFields ts).completed = some (ts.countP (fun t => t.completed)) ∧
    (memStatsFields ts).active
        = some (ts.length - ts.countP (fun t => t.completed)) ∧
    (memStatsFields ts).overdue = none ∧
    (memStatsFields ts).completionRate = none := by
  have hmem1 : (memStatsFields ts).completed = some (ts.countP (fun t => t.completed)) := by
    simp [memStatsFields, memAggregate, List.countP_eq_length_filter]
  have hmem2 : (memStatsFields ts).active
      = some (ts.length - ts.countP (fun t => t.completed)) := by
    simp only [memStatsFields, memAggregate]
    rw [← List.countP_eq_length_filter, countP_not_aux]
  cases docs with
  | nil =>
      refine ⟨rfl, rfl, rfl, rfl, rfl, rfl, hmem1, hmem2, rfl, rfl⟩
  | cons d0 ds =>
      have htot := foldl_length_aux (d0 :: ds) 0
      have hcomp := foldl_count_aux (fun d : MongoDoc => d.completed) (d0 :: ds) 0
      have hact := foldl_count_neg_aux (fun d : MongoDoc => d.completed) (d0 :: ds) 0
      have hovd := foldl_count_aux
        (fun d : MongoDoc => aggLtDate d.dueDate now && !d.completed) (d0 :: ds) 0
      have hunfold : getStatistics now (d0 :: ds) =
          { total := some ((d0 :: ds).foldl (fun acc _ => acc + 1) 0)
            completed := some ((d0 :: ds).foldl
                (fun acc d => acc + (if d.completed then 1 else 0)) 0)
            active := some ((d0 :: ds).foldl
                (fun acc d => acc + (if d.completed then 0 else 1)) 0)
            overdue := some ((d0 :: ds).foldl
                (fun acc d =>
                  acc + (if aggLtDate d.dueDate now && !d.completed then 1 else 0)) 0)
            completionRate := some
              (if (d0 :: ds).foldl (fun acc _ => acc + 1) 0 = 0 then 0
               else (Nat.cast ((d0 :: ds).foldl
                      (fun acc d => acc + (if d.completed then 1 else 0)) 0) : ℚ)
                  / (Nat.cast ((d0 :: ds).foldl (fun acc _ => acc + 1) 0) : ℚ)
                  * 100) } := rfl
      have hact2 : List.countP (fun x : MongoDoc => !x.completed) (d0 :: ds)
          = (d0 :: ds).length
            - List.countP (fun d : MongoDoc => d.completed) (d0 :: ds) :=
        countP_not_aux (fun d : MongoDoc => d.completed) (d0 :: ds)
      rw [hunfold]
      refine ⟨?_, ?_, ?_, ?_, ?_, rfl, hmem1, hmem2, rfl, rfl⟩
      · simp only [htot]; simp
      · simp only [hcomp]; simp
      · simp only [hact, hact2]; simp
      · simp only [hovd]; simp
      · simp only [htot, hcomp]; simp

/-- C5 counterexample.  The payload with text ab (shorter than 3) and
eleven tags violates two rules at once, yet the save fails with a
ValidationError whose details name only the text rule: the tag-cap rule
lives in the pre-save hook, which never runs when schema validation
fails, so the caller's 400 does not enumerate every violated rule. -/
theorem C5_counterexample :
    mongoSave 0 0 "x1" badPayload
      = Except.error
          (DBError.validation ["Task text must be at least 3 characters"]) ∧
    10 < (buildDoc 0 "x1" badPayload).tags.length ∧
    (handleDBError
        (DBError.validation ["Task text must be at least 3 characters"])).details
      = ["Task text must be at least 3 characters"] := by decide

/-- C5 amended.  When a creation payload fails, either schema validation
produced messages and the caller receives 400 with details equal to the
per-path schema messages (at most one per field, with the tag-cap rule
never among them), or schema validation passed and the document exceeded
ten tags, in which case the pre-save hook raised a plain Error answered
with the generic 500, not a ValidationError.  On the update path the
per-path messages of the updated fields are enumerated into a 400 the
same way, and the tag cap is never checked at all: an update whose
validation produces no message goes through to the write regardless of
how many tags it carries. -/
theorem C5_validation_reporting (now todayStart : Int) (newId : String)
    (p : CreatePayload) (e : DBError)
    (h : mongoSave now todayStart newId p = Except.error e)
    (i2 : String) (u : UpdateData) (docs : List MongoDoc) :
    ((¬ validateDoc todayStart (buildDoc now newId p) = [] ∧
      e = DBError.validation (validateDoc todayStart (buildDoc now newId p)) ∧
      (handleDBError e).status = 400 ∧
      (handleDBError e).details
        = validateDoc todayStart (buildDoc now newId p))
    ∨ (validateDoc todayStart (buildDoc now newId p) = [] ∧
      e = DBError.plainError "Cannot have more than 10 tags per task" ∧
      (handleDBError e).status = 500 ∧
      10 < (buildDoc now newId p).tags.length)) ∧
    (¬ validateUpdate todayStart u = [] →
      updateTaskMongo now todayStart i2 u docs
        = Except.error (DBError.validation (validateUpdate todayStart u)) ∧
      (handleDBError
          (DBError.validation (validateUpdate todayStart u))).status = 400 ∧
      (handleDBError
          (DBError.validation (validateUpdate todayStart u))).details
        = validateUpdate todayStart u) ∧
    (validateUpdate todayStart u = [] →
      updateTaskMongo now todayStart i2 u docs
        = Except.ok (mongoFindByIdAndUpdate now i2 u docs)) := by
  refine ⟨?_, ?_, ?_⟩
  · cases hv : validateDoc todayStart (buildDoc now newId p) with
    | cons e1 es =>
        left
        simp only [mongoSave, hv] at h
        have he : e = DBError.validation (e1 :: es) := by cases h; rfl
        subst he
        refine ⟨by simp, rfl, rfl, rfl⟩
    | nil =>
        right
        simp only [mongoSave, hv, preSaveHook] at h
        by_cases hgt : 10 < (buildDoc now newId p).tags.length
        · rw [if_pos hgt] at h
          have he : e = DBError.plainError
              "Cannot have more than 10 tags per task" := by
            cases h; rfl
          subst he
          exact ⟨rfl, rfl, rfl, hgt⟩
        · rw [if_neg hgt] at h
          cases h
  · intro hne
    cases hv : validateUpdate todayStart u with
    | nil => exact absurd hv hne
    | cons a as =>
        exact ⟨by simp [updateTaskMongo, hv], rfl, rfl⟩
  · intro hnil
    simp [updateTaskMongo, hnil]

/-- Witness for C5 at the doubly invalid creation payload, an update
patch violating the text rule and the tag cap at once (400 listing only
the text message), and an update violating only the tag cap (accepted:
the cap is never checked on updates). -/
theorem C5_validation_reporting_witness :
    mongoSave 0 0 "x1" badPayload
      = Except.error
          (DBError.validation ["Task text must be at least 3 characters"]) ∧
    ((¬ validateDoc 0 (buildDoc 0 "x1" badPayload) = [] ∧
        DBError.validation ["Task text must be at least 3 characters"]
          = DBError.validation (validateDoc 0 (buildDoc 0 "x1" badPayload)) ∧
        (handleDBError (DBError.validation
            ["Task text must be at least 3 characters"])).status = 400 ∧
        (handleDBError (DBError.validation
            ["Task text must be at least 3 characters"])).details
          = validateDoc 0 (buildDoc 0 "x1" badPayload))
      ∨ (validateDoc 0 (buildDoc 0 "x1" badPayload) = [] ∧
        DBError.validation ["Task text must be at least 3 characters"]
          = DBError.plainError "Cannot have more than 10 tags per task" ∧
        (handleDBError (DBError.validation
            ["Task text must be at least 3 characters"])).status = 500 ∧
        10 < (buildDoc 0 "x1" badPayload).tags.length)) ∧
    ¬ validateUpdate 0 { text := some "ab", tags := some elevenTags } = [] ∧
    (updateTaskMongo 0 0 "a1"
        { text := some "ab", tags := some elevenTags } [exDoc1]
      = Except.error (DBError.validation
          (validateUpdate 0 { text := some "ab", tags := some elevenTags })) ∧
      (handleDBError (DBError.validation (validateUpdate 0
          { text := some "ab", tags := some elevenTags }))).status = 400 ∧
      (handleDBError (DBError.validation (validateUpdate 0
          { text := some "ab", tags := some elevenTags }))).details
        = validateUpdate 0 { text := some "ab", tags := some elevenTags }) ∧
    validateUpdate 0 { tags := some elevenTags } = [] ∧
    updateTaskMongo 0 0 "a1" { tags := some elevenTags } [exDoc1]
      = Except.ok (mongoFindByIdAndUpdate 0 "a1"
          { tags := some elevenTags } [exDoc1]) :=
  ⟨by decide,
   (C5_validation_reporting 0 0 "x1" badPayload
     (DBError.validation ["Task text must be at least 3 characters"])
     (by decide) "a1" { text := some "ab", tags := some elevenTags }
     [exDoc1]).1,
   by decide,
   (C5_validation_reporting 0 0 "x1" badPayload
     (DBError.validation ["Task text must be at least 3 characters"])
     (by decide) "a1" { text := some "ab", tags := some elevenTags }
     [exDoc1]).2.1 (by decide),
   by decide,
   (C5_validation_reporting 0 0 "x1" badPayload
     (DBError.validation ["Task text must be at least 3 characters"])
     (by decide) "a1" { tags := some elevenTags } [exDoc1]).2.2 (by decide)⟩

/-- C6 counterexample.  The in-memory create path accepts the text ab
(normalized length 2, below the minimum of 3) and stores it unchanged,
and it stores internal whitespace runs uncollapsed: the claim's own
example text keeps its three inner spaces. -/
theorem C6_counterexample :
    (simpleCreateTaskMemory 0 { text := some "ab" } emptyStore).toOption.map
      (fun r => (r.1.text, r.1.text.length)) = some ("ab", 2) ∧
    (simpleCreateTaskMemory 0 { text := some "   multiple   spaces  " }
        emptyStore).toOption.map (fun r => r.1.text)
      = some "multiple   spaces" := by decide

/-- C6 amended.  On the document backend every accepted create stores a
text equal to the trimmed input with whitespace runs collapsed, and the
validator guarantees — on the trimmed text, before collapsing — length
between 3 and 255 and no markup tag.  On the in-memory backend the text
is only trimmed: the sole check is that it does not trim to nothing, and
the stored text is the trimmed input with inner runs kept. -/
theorem C6_text_rules (now todayStart : Int) (newId : String)
    (p : CreatePayload) (raw : String) (hraw : p.text = some raw)
    (d : MongoDoc) (h : mongoSave now todayStart newId p = Except.ok d)
    (p2 : CreatePayload) (raw2 : String) (hraw2 : p2.text = some raw2)
    (s : MemStore) (t : MemTask) (s2 : MemStore)
    (h2 : simpleCreateTaskMemory now p2 s = Except.ok (t, s2)) :
    d.text = some (collapseWs (jsTrim raw)) ∧
    3 ≤ (jsTrim raw).length ∧ (jsTrim raw).length ≤ 255 ∧
    hasHtmlTag (jsTrim raw) = false ∧
    t.text = jsTrim raw2 ∧ ¬ jsTrim raw2 = "" := by
  have hv := mongoSave_ok_validate now todayStart newId p d h
  have hsh := (mongoSave_ok_shape now todayStart newId p d h).1
  have htext : (buildDoc now newId p).text = some (jsTrim raw) := by
    simp [buildDoc, hraw]
  simp only [validateDoc, List.append_eq_nil] at hv
  obtain ⟨⟨⟨⟨h1, hp2⟩, hp3⟩, hp4⟩, hp5⟩ := hv
  obtain ⟨hb1, hb2, hb3⟩ := textErrors_nil (jsTrim raw) _ htext h1
  have hz : ¬ jsTrim raw2 = "" := by
    intro hzz
    simp only [simpleCreateTaskMemory, hraw2] at h2
    rw [if_pos hzz] at h2
    cases h2
  have hmem := simpleCreateTaskMemory_ok now p2 raw2 hraw2 hz s
  rw [hmem] at h2
  have ht : t = (memCreate now
      { text := jsTrim raw2
        completed := some (p2.completed.getD false)
        priority := some (orDefault p2.priority "medium")
        category := some (orDefault p2.category "general")
        tags := some (p2.tags.getD [])
        dueDate := p2.dueDate
        metadata := none } s).1 := by cases h2; rfl
  refine ⟨?_, hb1, hb2, hb3, ?_, hz⟩
  · rw [hsh]
    show (buildDoc now newId p).text.map collapseWs
        = some (collapseWs (jsTrim raw))
    rw [htext]
    rfl
  · rw [ht]
    rfl

/-- Witness for C6: the padded text is stored collapsed on the document
backend and merely trimmed on the in-memory backend. -/
theorem C6_text_rules_witness :
    mongoSave 0 0 "w1" { text := some "  hello   world " } = Except.ok exSaveDoc ∧
    simpleCreateTaskMemory 0 { text := some " ab " } emptyStore
      = Except.ok (exMemTaskAb, { tasks := [exMemTaskAb], nextId := 2 }) ∧
    (exSaveDoc.text = some (collapseWs (jsTrim "  hello   world ")) ∧
      3 ≤ (jsTrim "  hello   world ").length ∧
      (jsTrim "  hello   world ").length ≤ 255 ∧
      hasHtmlTag (jsTrim "  hello   world ") = false ∧
      exMemTaskAb.text = jsTrim " ab " ∧ ¬ jsTrim " ab " = "") :=
  ⟨by decide, by decide,
   C6_text_rules 0 0 "w1" { text := some "  hello   world " }
     "  hello   world " rfl exSaveDoc (by decide)
     { text := some " ab " } " ab " rfl emptyStore exMemTaskAb
     { tasks := [exMemTaskAb], nextId := 2 } (by decide)⟩

/-- C7 counterexample.  With the start of the current day at 1000, a
creation through the in-memory path carrying dueDate 500 (strictly before
the start of the day) succeeds and stores that date: no validation error
is raised on this backend. -/
theorem C7_counterexample :
    (simpleCreateTaskMemory 2000
        { text := some "Pay rent", dueDate := some 500 }
        emptyStore).toOption.map (fun r => r.1.dueDate)
      = some (some 500) ∧ (500 : Int) < 1000 := by decide

/-- C7 amended.  On the document backend a create whose payload carries a
dueDate strictly before the start of the current calendar day is rejected
(any accepted payload's dueDate is at or after that instant), and a
dueDate at the start of the day or later — today included — is accepted
whenever the rest of the payload is; likewise an update whose patch
carries a dueDate strictly before the start of the day is rejected with a
ValidationError naming the dueDate rule (runValidators runs the
validator), while a dueDate-only patch dated today or later passes
validation and goes through to the write.  On the in-memory backend any
dueDate, past ones included, is accepted and stored unchanged. -/
theorem C7_dueDate_validation (now todayStart : Int) (newId newId2 : String)
    (p : CreatePayload) (d : MongoDoc)
    (hok : mongoSave now todayStart newId p = Except.ok d)
    (due : Int) (hdue : p.dueDate = some due)
    (q : CreatePayload) (e : MongoDoc)
    (hq : mongoSave now todayStart newId2 { q with dueDate := none }
        = Except.ok e)
    (due2 : Int) (hdue2 : todayStart ≤ due2)
    (p2 : CreatePayload) (raw2 : String) (hraw2 : p2.text = some raw2)
    (hz2 : ¬ jsTrim raw2 = "") (s : MemStore)
    (i3 : String) (docs3 : List MongoDoc)
    (u3 : UpdateData) (due3 : Int) (h3 : u3.dueDate = some (some due3))
    (hlt3 : due3 < todayStart)
    (due4 : Int) (hge4 : todayStart ≤ due4) :
    todayStart ≤ due ∧
    (∃ d2, mongoSave now todayStart newId2 { q with dueDate := some due2 }
        = Except.ok d2 ∧ d2.dueDate = some due2) ∧
    (∃ t s2, simpleCreateTaskMemory now p2 s = Except.ok (t, s2) ∧
        t.dueDate = p2.dueDate) ∧
    (∃ msgs, updateTaskMongo now todayStart i3 u3 docs3
        = Except.error (DBError.validation msgs) ∧
      "Due date cannot be in the past" ∈ msgs) ∧
    updateTaskMongo now todayStart i3
        ({ dueDate := some (some due4) } : UpdateData) docs3
      = Except.ok (mongoFindByIdAndUpdate now i3
          ({ dueDate := some (some due4) } : UpdateData) docs3) := by
  refine ⟨?_, ?_, ?_, ?_, ?_⟩
  · have hv := mongoSave_ok_validate now todayStart newId p d hok
    have hd : (buildDoc now newId p).dueDate = some due := by
      simp [buildDoc, hdue]
    simp only [validateDoc, List.append_eq_nil] at hv
    obtain ⟨⟨⟨⟨h1, hp2⟩, hp3⟩, hp4⟩, hp5⟩ := hv
    exact dueDateErrors_nil todayStart _ due hd hp4
  · have hgt2 := (mongoSave_ok_shape now todayStart newId2
      { q with dueDate := none } e hq).2
    have hvdue : validateDoc todayStart
        (buildDoc now newId2 { q with dueDate := some due2 }) = [] := by
      have hv0 := mongoSave_ok_validate now todayStart newId2
        { q with dueDate := none } e hq
      have heq : validateDoc todayStart
            (buildDoc now newId2 { q with dueDate := some due2 })
          = textErrors (buildDoc now newId2 { q with dueDate := none })
            ++ priorityErrors (buildDoc now newId2 { q with dueDate := none })
            ++ categoryErrors (buildDoc now newId2 { q with dueDate := none })
            ++ (if due2 < todayStart
                then ["Due date cannot be in the past"] else [])
            ++ tagsErrors (buildDoc now newId2 { q with dueDate := none }) := rfl
      rw [heq, if_neg (by omega)]
      simp only [validateDoc, List.append_eq_nil] at hv0
      obtain ⟨⟨⟨⟨h1, hp2⟩, hp3⟩, hp4⟩, hp5⟩ := hv0
      simp [h1, hp2, hp3, hp5]
    refine ⟨{ buildDoc now newId2 { q with dueDate := some due2 } with
        lastModified := now
        text := (buildDoc now newId2 { q with dueDate := some due2 }).text.map
            collapseWs
        tags := (buildDoc now newId2
            { q with dueDate := some due2 }).tags.filter
            (fun t => t != "" && jsTrim t != "") }, ?_, ?_⟩
    · have hcond : ¬ 10 < (buildDoc now newId2
          { q with dueDate := some due2 }).tags.length := hgt2
      simp only [mongoSave, hvdue, preSaveHook]
      rw [if_neg hcond]
    · simp [buildDoc]
  · exact ⟨_, _, by rw [simpleCreateTaskMemory_ok now p2 raw2 hraw2 hz2 s], rfl⟩
  · have hmemb : "Due date cannot be in the past"
        ∈ validateUpdate todayStart u3 := by
      simp [validateUpdate, updDueDateErrors, h3, hlt3]
    cases hv : validateUpdate todayStart u3 with
    | nil => rw [hv] at hmemb; cases hmemb
    | cons a as =>
        rw [hv] at hmemb
        exact ⟨a :: as, by simp [updateTaskMongo, hv], hmemb⟩
  · have hnlt : ¬ due4 < todayStart := by omega
    have hvnil : validateUpdate todayStart
        ({ dueDate := some (some due4) } : UpdateData) = [] := by
      simp [validateUpdate, updTextErrors, updPriorityErrors,
        updCategoryErrors, updDueDateErrors, updTagsErrors, hnlt]
    simp [updateTaskMongo, hvnil]

/-- Witness for C7 at concrete instants: todayStart 1000, a payload due
at 1200 accepted, a payload without dueDate accepted and one re-dated to
today itself (1000) accepted, an in-memory create storing dueDate 500,
an update patch dated 500 rejected with the dueDate message, and an
update patch dated today (1000) passing validation. -/
theorem C7_dueDate_validation_witness :
    mongoSave 1500 1000 "m1" { text := some "Buy milk", dueDate := some 1200 }
      = Except.ok exMilkDoc ∧
    mongoSave 1500 1000 "m2"
        { ({ text := some "Call mom" } : CreatePayload) with dueDate := none }
      = Except.ok exMomDoc ∧
    ¬ jsTrim "Pay rent" = "" ∧
    ((1000 : Int) ≤ 1200 ∧
      (∃ d2, mongoSave 1500 1000 "m2"
          { ({ text := some "Call mom" } : CreatePayload) with
            dueDate := some 1000 }
          = Except.ok d2 ∧ d2.dueDate = some 1000) ∧
      (∃ t s2, simpleCreateTaskMemory 1500
          { text := some "Pay rent", dueDate := some 500 } emptyStore
          = Except.ok (t, s2) ∧
          t.dueDate = ({ text := some "Pay rent", dueDate := some 500 }
            : CreatePayload).dueDate) ∧
      (∃ msgs, updateTaskMongo 1500 1000 "a1"
          ({ dueDate := some (some 500) } : UpdateData) [exDoc1]
          = Except.error (DBError.validation msgs) ∧
        "Due date cannot be in the past" ∈ msgs) ∧
      updateTaskMongo 1500 1000 "a1"
          ({ dueDate := some (some 1000) } : UpdateData) [exDoc1]
        = Except.ok (mongoFindByIdAndUpdate 1500 "a1"
            ({ dueDate := some (some 1000) } : UpdateData) [exDoc1])) :=
  ⟨by decide, by decide, by decide,
   C7_dueDate_validation 1500 1000 "m1" "m2"
     { text := some "Buy milk", dueDate := some 1200 } exMilkDoc (by decide)
     1200 (by decide) { text := some "Call mom" } exMomDoc (by decide)
     1000 (by decide) { text := some "Pay rent", dueDate := some 500 }
     "Pay rent" rfl (by decide) emptyStore
     "a1" [exDoc1] { dueDate := some (some 500) } 500 rfl (by decide)
     1000 (by decide)⟩

/-- C8 counterexample.  The development sample data itself contains a
task with priority urgent — outside the enumeration low, medium, high —
and the in-memory create stores any provided priority string verbatim. -/
theorem C8_counterexample :
    ((initSampleData 0 emptyStore).tasks.countP
        (fun t => t.priority == "urgent")) = 1 ∧
    (memCreate 0 { text := "Ship it", priority := some "urgent" }
        emptyStore).1.priority = "urgent" := by decide

/-- C8 amended.  On the document backend every created task's priority
lies in the enumeration low, medium, high, an omitted priority defaults
to medium, and the enumeration is preserved across updates: an accepted
update (runValidators runs the enum validator on a carried priority)
leaves the updated document's priority in the enumeration whenever the
stored one was.  On the in-memory backend an omitted (or empty) priority
defaults to medium, but any provided string — urgent included — is
stored verbatim, and the built-in sample data contains such a task. -/
theorem C8_priority_enum (now todayStart : Int) (newId : String)
    (p : CreatePayload) (d : MongoDoc)
    (h : mongoSave now todayStart newId p = Except.ok d)
    (dm : MemCreateData) (s : MemStore)
    (i3 : String) (docs3 : List MongoDoc) (u3 : UpdateData)
    (r : Option MongoDoc × List MongoDoc)
    (h3 : updateTaskMongo now todayStart i3 u3 docs3 = Except.ok r)
    (d1 : MongoDoc) (hd1 : mongoFindById i3 docs3 = some d1)
    (henum : d1.priority = "low" ∨ d1.priority = "medium"
      ∨ d1.priority = "high")
    (d2 : MongoDoc) (hr : r.1 = some d2) :
    (d.priority = "low" ∨ d.priority = "medium" ∨ d.priority = "high") ∧
    (p.priority = none → d.priority = "medium") ∧
    (dm.priority = none → (memCreate now dm s).1.priority = "medium") ∧
    (memCreate now dm s).1.priority = orDefault dm.priority "medium" ∧
    (d2.priority = "low" ∨ d2.priority = "medium"
      ∨ d2.priority = "high") := by
  have hv := mongoSave_ok_validate now todayStart newId p d h
  have hsh := (mongoSave_ok_shape now todayStart newId p d h).1
  have hpr : d.priority = (buildDoc now newId p).priority := by rw [hsh]
  simp only [validateDoc, List.append_eq_nil] at hv
  obtain ⟨⟨⟨⟨h1, hp2⟩, hp3⟩, hp4⟩, hp5⟩ := hv
  refine ⟨?_, ?_, ?_, rfl, ?_⟩
  · rw [hpr]
    exact priorityErrors_nil _ hp2
  · intro hp
    rw [hpr]
    simp [buildDoc, hp]
  · intro hp
    simp [memCreate, orDefault, hp]
  · cases hvu : validateUpdate todayStart u3 with
    | cons a as => simp only [updateTaskMongo, hvu] at h3; cases h3
    | nil =>
        have hvu2 := hvu
        simp only [validateUpdate, List.append_eq_nil] at hvu2
        obtain ⟨⟨⟨⟨g1, g2⟩, g3⟩, g4⟩, g5⟩ := hvu2
        simp only [updateTaskMongo, hvu] at h3
        have hr2 : r = mongoFindByIdAndUpdate now i3 u3 docs3 := by
          cases h3; rfl
        subst hr2
        cases hset : setFirst (fun dd : MongoDoc => dd._id == i3)
            (mongoApplyUpdate now u3) docs3 with
        | none => simp [mongoFindByIdAndUpdate, hset] at hr
        | some rr =>
            obtain ⟨e2, ds2⟩ := rr
            simp only [mongoFindByIdAndUpdate, hset] at hr
            have hd2 : d2 = e2 := by cases hr; rfl
            have he2 : e2 = mongoApplyUpdate now u3 d1 :=
              setFirst_find? (fun dd : MongoDoc => dd._id == i3)
                (mongoApplyUpdate now u3) docs3 d1 e2 ds2 hd1 hset
            subst hd2
            rw [he2]
            show ((u3.priority.map jsLower).getD d1.priority = "low")
              ∨ ((u3.priority.map jsLower).getD d1.priority = "medium")
              ∨ ((u3.priority.map jsLower).getD d1.priority = "high")
            cases hup : u3.priority with
            | none => simpa [hup] using henum
            | some p0 =>
                simpa [hup] using updPriorityErrors_nil u3 p0 hup g2

/-- Witness for C8: the milk payload (no priority) stores medium; the
memory payload without priority stores medium too; a completed-flag
update on the stored milk document keeps its priority in the
enumeration. -/
theorem C8_priority_enum_witness :
    mongoSave 1500 1000 "m1" { text := some "Buy milk", dueDate := some 1200 }
      = Except.ok exMilkDoc ∧
    updateTaskMongo 1500 1000 "m1" { completed := some true } [exMilkDoc]
      = Except.ok (some exMilkDoc2, [exMilkDoc2]) ∧
    mongoFindById "m1" [exMilkDoc] = some exMilkDoc ∧
    ((exMilkDoc.priority = "low" ∨ exMilkDoc.priority = "medium"
        ∨ exMilkDoc.priority = "high") ∧
      (({ text := some "Buy milk", dueDate := some 1200 }
          : CreatePayload).priority = none → exMilkDoc.priority = "medium") ∧
      (({ text := "Ship it" } : MemCreateData).priority = none →
        (memCreate 0 { text := "Ship it" } emptyStore).1.priority
          = "medium") ∧
      (memCreate 0 { text := "Ship it" } emptyStore).1.priority
        = orDefault ({ text := "Ship it" } : MemCreateData).priority
            "medium" ∧
      (exMilkDoc2.priority = "low" ∨ exMilkDoc2.priority = "medium"
        ∨ exMilkDoc2.priority = "high")) :=
  ⟨by decide, by decide, by decide,
   C8_priority_enum 1500 1000 "m1"
     { text := some "Buy milk", dueDate := some 1200 } exMilkDoc (by decide)
     { text := "Ship it" } emptyStore
     "m1" [exMilkDoc] { completed := some true }
     (some exMilkDoc2, [exMilkDoc2]) (by decide)
     exMilkDoc (by decide) (by decide) exMilkDoc2 rfl⟩

/-- C9.  For every id, on both backends: after a successful delete of the
id (in a store or collection matching the id at most once, the invariant
the id assignment maintains), a findById on that id yields not-found;
deleting an id that matches nothing yields the null not-found value which
the responding controller maps to a 404 response, never an exception,
with the task set unchanged; and any 404 delete response leaves the
store or collection exactly as it was.  The in-memory side goes through
InMemoryTask and the simplified controller, the document side through
Task.findByIdAndDelete and the deleteTask handler of
taskController.js. -/
theorem C9_delete_semantics (i : String) (s : MemStore)
    (hcount : s.tasks.countP (matchesId i) ≤ 1)
    (i2 : String) (docs : List MongoDoc)
    (hcount2 : docs.countP (fun dd : MongoDoc => dd._id == i2) ≤ 1) :
    (∀ t s2, memFindByIdAndDelete i s = (some t, s2) →
        memFindById i s2 = none) ∧
    (memFindById i s = none →
        memFindByIdAndDelete i s = (none, s) ∧
        simpleDeleteTaskMemory i s = (404, s)) ∧
    (∀ s2, simpleDeleteTaskMemory i s = (404, s2) → s2 = s) ∧
    (∀ d docs2, mongoFindByIdAndDelete i2 docs = (some d, docs2) →
        mongoFindById i2 docs2 = none) ∧
    (mongoFindById i2 docs = none →
        mongoFindByIdAndDelete i2 docs = (none, docs) ∧
        mainDeleteTask i2 docs = (404, docs)) ∧
    (∀ docs2, mainDeleteTask i2 docs = (404, docs2) → docs2 = docs) := by
  refine ⟨?_, ?_, ?_, ?_, ?_, ?_⟩
  · intro t s2 hdel
    cases hrem : removeFirst (matchesId i) s.tasks with
    | none => simp [memFindByIdAndDelete, hrem] at hdel
    | some r =>
        obtain ⟨d, ts2⟩ := r
        have hc := removeFirst_countP (matchesId i) s.tasks d ts2 hrem
        simp only [memFindByIdAndDelete, hrem] at hdel
        have hs2 : s2 = { s with tasks := ts2 } := by cases hdel; rfl
        subst hs2
        have hzero : ts2.countP (matchesId i) = 0 := by omega
        exact List.find?_eq_none.mpr (List.countP_eq_zero.mp hzero)
  · intro hnone
    have hall : ∀ x ∈ s.tasks, ¬ matchesId i x = true :=
      List.find?_eq_none.mp hnone
    have hrem := removeFirst_eq_none (matchesId i) s.tasks hall
    constructor
    · simp [memFindByIdAndDelete, hrem]
    · simp [simpleDeleteTaskMemory, memFindByIdAndDelete, hrem]
  · intro s2 h404
    cases hrem : removeFirst (matchesId i) s.tasks with
    | none =>
        simp only [simpleDeleteTaskMemory, memFindByIdAndDelete, hrem] at h404
        cases h404
        rfl
    | some r =>
        cases r with
        | mk d ts2 =>
            simp [simpleDeleteTaskMemory, memFindByIdAndDelete, hrem] at h404
  · intro d docs2 hdel
    cases hrem : removeFirst (fun dd : MongoDoc => dd._id == i2) docs with
    | none => simp [mongoFindByIdAndDelete, hrem] at hdel
    | some r =>
        obtain ⟨d0, ds2⟩ := r
        have hc := removeFirst_countP (fun dd : MongoDoc => dd._id == i2)
          docs d0 ds2 hrem
        simp only [mongoFindByIdAndDelete, hrem] at hdel
        have hd2 : docs2 = ds2 := by cases hdel; rfl
        subst hd2
        have hzero : docs2.countP (fun dd : MongoDoc => dd._id == i2) = 0 := by
          omega
        exact List.find?_eq_none.mpr (List.countP_eq_zero.mp hzero)
  · intro hnone
    have hall : ∀ x ∈ docs, ¬ (x._id == i2) = true :=
      List.find?_eq_none.mp hnone
    have hrem := removeFirst_eq_none (fun dd : MongoDoc => dd._id == i2)
      docs hall
    constructor
    · simp [mongoFindByIdAndDelete, hrem]
    · simp [mainDeleteTask, mongoFindByIdAndDelete, hrem]
  · intro docs2 h404
    cases hrem : removeFirst (fun dd : MongoDoc => dd._id == i2) docs with
    | none =>
        simp only [mainDeleteTask, mongoFindByIdAndDelete, hrem] at h404
        cases h404
        rfl
    | some r =>
        cases r with
        | mk d ds2 =>
            simp [mainDeleteTask, mongoFindByIdAndDelete, hrem] at h404

/-- C1 counterexample.  With no live connection (readyState 0, not
connected), the list operation of taskController.js is still served by the
document model, not the in-memory variant: every handler of that file uses
the imported Task model directly and never calls getTaskModel. -/
theorem C1_counterexample :
    mainControllerModel ApiOp.list 0 = BackendKind.mongo ∧
    ¬ mainControllerModel ApiOp.list 0 = BackendKind.memory ∧
    isMongoAvailable 0 = false := by decide

/-- C1 amended.  Whenever no live database connection exists, every
operation of the simplified controller (which resolves its model through
getTaskModel on each request) is served by the in-memory variant; the
handlers of taskController.js instead address the document model for every
operation regardless of the connection state. -/
theorem C1_backend_routing (op : ApiOp) (readyState : Nat)
    (h : isMongoAvailable readyState = false) :
    simpleControllerModel op readyState = BackendKind.memory ∧
    mainControllerModel op readyState = BackendKind.mongo := by
  constructor
  · simp [simpleControllerModel, getTaskModel, h]
  · rfl

/-- Witness for C1 at the disconnected state and the list operation. -/
theorem C1_backend_routing_witness :
    isMongoAvailable 0 = false ∧
    (simpleControllerModel ApiOp.list 0 = BackendKind.memory ∧
      mainControllerModel ApiOp.list 0 = BackendKind.mongo) :=
  ⟨rfl, C1_backend_routing ApiOp.list 0 rfl⟩

/-- C2 counterexample.  In the in-memory backend a patch that itself
mentions createdAt overwrites it: the store's only task was created at
instant 100, yet after an update whose patch carries createdAt 999 the
stored and returned task reports createdAt 999. -/
theorem C2_counterexample :
    (memFindByIdAndUpdate 200 "1" { createdAt := some 999 } { new := true }
        exStore1).toOption.bind (fun r => r.1.map MemTask.createdAt)
      = some 999 ∧
    (memFindById "1" exStore1).map MemTask.createdAt = some 100 := by decide

/-- C2 amended.  For every task and every update: on the in-memory backend
an update whose patch does not itself mention createdAt leaves createdAt
exactly unchanged and sets lastModified to the current instant (hence to a
value at or above its previous one whenever time has not moved backwards);
on the document backend the same holds for every patch, including one
mentioning createdAt, because the schema declares createdAt immutable. -/
theorem C2_update_timestamps (now : Int) (i : String) (u : UpdateData)
    (s : MemStore) (t1 : MemTask) (h1 : memFindById i s = some t1)
    (t2 : MemTask) (s2 : MemStore)
    (h2 : memFindByIdAndUpdate now i u { new := true } s
        = Except.ok (some t2, s2))
    (hc : u.createdAt = none)
    (i2 : String) (u2 : UpdateData) (docs docs2 : List MongoDoc)
    (d1 : MongoDoc) (hd1 : mongoFindById i2 docs = some d1)
    (d2 : MongoDoc)
    (hd2 : mongoFindByIdAndUpdate now i2 u2 docs = (some d2, docs2)) :
    t2.createdAt = t1.createdAt ∧ t2.lastModified = now ∧
    (t1.lastModified ≤ now → t1.lastModified ≤ t2.lastModified) ∧
    d2.createdAt = d1.createdAt ∧ d2.lastModified = now := by
  have hmem : t2 = spreadUpdate t1 u now := by
    cases hset : setFirst (matchesId i) (fun t => spreadUpdate t u now) s.tasks with
    | none => simp [memFindByIdAndUpdate, hset] at h2
    | some r =>
        obtain ⟨u2m, ts2⟩ := r
        simp only [memFindByIdAndUpdate, hset] at h2
        have ht : t2 = u2m := by cases h2; rfl
        rw [ht]
        exact setFirst_find? (matchesId i) (fun t => spreadUpdate t u now)
          s.tasks t1 u2m ts2 h1 hset
  have hmongo : d2 = mongoApplyUpdate now u2 d1 := by
    cases hset : setFirst (fun d : MongoDoc => d._id == i2) (mongoApplyUpdate now u2) docs with
    | none => simp [mongoFindByIdAndUpdate, hset] at hd2
    | some r =>
        obtain ⟨e, ds⟩ := r
        simp only [mongoFindByIdAndUpdate, hset] at hd2
        have ht : d2 = e := by cases hd2; rfl
        rw [ht]
        exact setFirst_find? (fun d : MongoDoc => d._id == i2)
          (mongoApplyUpdate now u2) docs d1 e ds hd1 hset
  subst hmem
  subst hmongo
  refine ⟨?_, rfl, ?_, rfl, rfl⟩
  · simp [spreadUpdate, hc]
  · intro hle
    simpa [spreadUpdate] using hle

/-- Witness for C2 at a concrete store and collection: a text-only patch
on the in-memory task and a completed-flag patch on the stored document,
both at instant 200 over records from instant 100. -/
theorem C2_update_timestamps_witness :
    memFindById "1" exStore1 = some exTask1 ∧
    memFindByIdAndUpdate 200 "1" exPatch { new := true } exStore1
      = Except.ok (some exTask1Upd, { tasks := [exTask1Upd], nextId := 2 }) ∧
    exPatch.createdAt = none ∧
    mongoFindById "a1" [exDoc1] = some exDoc1 ∧
    mongoFindByIdAndUpdate 200 "a1" { completed := some true } [exDoc1]
      = (some exDoc1Upd, [exDoc1Upd]) ∧
    (exTask1Upd.createdAt = exTask1.createdAt ∧
      exTask1Upd.lastModified = 200 ∧
      (exTask1.lastModified ≤ 200 →
        exTask1.lastModified ≤ exTask1Upd.lastModified) ∧
      exDoc1Upd.createdAt = exDoc1.createdAt ∧
      exDoc1Upd.lastModified = 200) :=
  ⟨by decide, by decide, by decide, by decide, by decide,
   C2_update_timestamps 200 "1" exPatch exStore1 exTask1 (by decide)
     exTask1Upd { tasks := [exTask1Upd], nextId := 2 } (by decide) (by decide)
     "a1" { completed := some true } [exDoc1] [exDoc1Upd] exDoc1 (by decide)
     exDoc1Upd (by decide)⟩

/-- Witness for C9 at a concrete store and collection: deleting the only
task or document makes its id unfindable, and deleting a missing id
answers 404 on both backends with the state intact. -/
theorem C9_delete_semantics_witness :
    exStore1.tasks.countP (matchesId "1") ≤ 1 ∧
    ([exDoc1].countP (fun dd : MongoDoc => dd._id == "a1")) ≤ 1 ∧
    memFindById "1" (memFindByIdAndDelete "1" exStore1).2 = none ∧
    (memFindByIdAndDelete "99" exStore1 = (none, exStore1) ∧
      simpleDeleteTaskMemory "99" exStore1 = (404, exStore1)) ∧
    mongoFindById "a1" (mongoFindByIdAndDelete "a1" [exDoc1]).2 = none ∧
    (mongoFindByIdAndDelete "zz" [exDoc1] = (none, [exDoc1]) ∧
      mainDeleteTask "zz" [exDoc1] = (404, [exDoc1])) :=
  ⟨by decide, by decide,
   (C9_delete_semantics "1" exStore1 (by decide) "a1" [exDoc1]
     (by decide)).1 exTask1 { tasks := [], nextId := 2 } (by decide),
   ((C9_delete_semantics "99" exStore1 (by decide) "a1" [exDoc1]
     (by decide)).2.1 (by decide)),
   (C9_delete_semantics "1" exStore1 (by decide) "a1" [exDoc1]
     (by decide)).2.2.2.1 exDoc1 [] (by decide),
   ((C9_delete_semantics "1" exStore1 (by decide) "zz" [exDoc1]
     (by decide)).2.2.2.2.1 (by decide))⟩

end TaskFlow
